import Mathlib

/-!
Verification of the market-ratio analyzer.

This file gives a shallow embedding of the computational core of the
repository (the `mt5_client` package, `analyze_all_ratios.py` and
`market_ratio_analyzer.py`) and settles the frozen claims against it.

Modelling conventions:
* Python floats are idealized as rationals (`ℚ`); timestamps (pandas UTC
  instants / unix seconds) are integers (`ℤ`).
* Python exceptions become an explicit error type `PyError`, whose
  constructors are named after the exception classes the code actually
  raises (`ValueError`, `RuntimeError`, and pandas' positional
  `IndexError` from `.iloc[-1]` on an empty frame); fallible code returns
  `Except PyError α`.
* A pandas `DataFrame` of OHLCV rows is a `List Bar` (index `time` made a
  column, as after `reset_index()`).
* `pd.merge(..., on='time', how='inner')` joins every left row with every
  matching right row, preserving left key order (and right order within a
  key) — embedded as `flatMap`/`filter` below.
-/

namespace MarketRatio

/-- The Python exception classes raised by the code under analysis.
`indexError` is pandas' "single positional indexer is out-of-bounds"
raised by `.iloc[-1]` on an empty column. -/
inductive PyError where
  | valueError (msg : String)
  | runtimeError (msg : String)
  | indexError
deriving DecidableEq, Repr

/-- One OHLCV record, as returned by `MT5Client.get_rates`
(`src/mt5_client/client.py`, columns
`time, open, high, low, close, tick_volume, spread, real_volume`).
`open` is a Lean keyword, hence the field name `open_price`. -/
structure Bar where
  time : ℤ
  open_price : ℚ
  high : ℚ
  low : ℚ
  close : ℚ
  tick_volume : ℤ
  spread : ℤ
  real_volume : ℤ
deriving DecidableEq, Repr

/-- One row of the merged frame built by `calculate_ratio`
(`src/analyze_all_ratios.py` lines 86-98): columns
`time, close_1, close_2, ratio`. -/
structure RatioPoint where
  time : ℤ
  close_1 : ℚ
  close_2 : ℚ
  ratio : ℚ
deriving DecidableEq, Repr

/-- `calculate_ratio(df1, df2)` from `src/analyze_all_ratios.py` lines
86-98 (the same logic appears in `src/market_ratio_analyzer.py` lines
77-92 with named suffixes): reset the index, inner-merge the two frames
on `time`, and set `ratio = close_1 / close_2` on every merged row.
There is no zero-divisor filtering: the quotient is taken at every joined
timestamp.  (In ℚ, `x / 0 = 0`; in the Python floats the same expression
yields `inf`/`NaN`.  The claims settled below only use the quotient at
nonzero divisors, except where the zero case is exactly the point at
issue.) -/
def calculate_ratio (df1 df2 : List Bar) : List RatioPoint :=
  df1.flatMap (fun b1 =>
    (df2.filter (fun b2 => b2.time = b1.time)).map (fun b2 =>
      { time := b1.time
        close_1 := b1.close
        close_2 := b2.close
        ratio := b1.close / b2.close }))

/-- The `time` column of a bar frame. -/
def times (df : List Bar) : List ℤ := df.map (·.time)

/-- The `time` column of a merged ratio frame. -/
def rtimes (rs : List RatioPoint) : List ℤ := rs.map (·.time)

theorem times_nodup_filter_eq_nil {df : List Bar} {t : ℤ}
    (h : t ∉ times df) : df.filter (fun b => b.time = t) = [] := by
  rw [List.filter_eq_nil_iff]
  intro b hb hbt
  exact h (List.mem_map.mpr ⟨b, hb, by simpa using hbt⟩)

theorem times_nodup_filter_length_one {df : List Bar} {t : ℤ}
    (hnd : (times df).Nodup) (ht : t ∈ times df) :
    (df.filter (fun b => b.time = t)).length = 1 := by
  induction df with
  | nil => simp [times] at ht
  | cons b df ih =>
    simp only [times, List.map_cons, List.nodup_cons] at hnd
    by_cases hbt : b.time = t
    · have ht' : t ∈ times df → False := by
        intro hmem
        exact hnd.1 (hbt ▸ hmem)
      have : df.filter (fun b' => b'.time = t) = [] :=
        times_nodup_filter_eq_nil (fun hmem => ht' hmem)
      simp [List.filter_cons, hbt, this]
    · have ht'' : t ∈ times df := by
        rcases List.mem_map.mp ht with ⟨c, hc, hct⟩
        rcases List.mem_cons.mp hc with hc2 | hc2
        · exact absurd hct (by simpa [hc2] using hbt)
        · exact List.mem_map.mpr ⟨c, hc2, hct⟩
      have := ih hnd.2 ht''
      simpa [List.filter_cons, hbt] using this

/-- With duplicate-free right-hand timestamps, the merged `time` column is
the left `time` column filtered to timestamps present on the right. -/
theorem rtimes_calculate_ratio (df1 df2 : List Bar)
    (hnd2 : (times df2).Nodup) :
    rtimes (calculate_ratio df1 df2) =
      (times df1).filter (fun t => decide (t ∈ times df2)) := by
  induction df1 with
  | nil => simp [calculate_ratio, rtimes, times]
  | cons b df1 ih =>
    have hsplit : rtimes (calculate_ratio (b :: df1) df2) =
        List.replicate (df2.filter (fun b2 => b2.time = b.time)).length b.time ++
          rtimes (calculate_ratio df1 df2) := by
      simp only [calculate_ratio, List.flatMap_cons, rtimes, List.map_append,
        List.map_map]
      congr 1
      simp [Function.comp_def, List.map_const']
    by_cases hmem : b.time ∈ times df2
    · have hlen := times_nodup_filter_length_one hnd2 hmem
      rcases List.length_eq_one.mp hlen with ⟨b2, hb2⟩
      have hcons : (times (b :: df1)).filter (fun t => decide (t ∈ times df2)) =
          b.time :: (times df1).filter (fun t => decide (t ∈ times df2)) := by
        have : times (b :: df1) = b.time :: times df1 := by simp [times]
        rw [this, List.filter_cons, if_pos (by simpa using hmem)]
      rw [hsplit, hb2, hcons, ih]
      simp
    · have hnil := times_nodup_filter_eq_nil hmem
      have hcons : (times (b :: df1)).filter (fun t => decide (t ∈ times df2)) =
          (times df1).filter (fun t => decide (t ∈ times df2)) := by
        have : times (b :: df1) = b.time :: times df1 := by simp [times]
        rw [this, List.filter_cons, if_neg (by simpa using hmem)]
      rw [hsplit, hnil, hcons, ih]
      simp

/-- Bar constructor for concrete test series: only `time` and `close`
matter to the ratio pipeline. -/
def mkBar (t : ℤ) (c : ℚ) : Bar :=
  { time := t, open_price := c, high := c, low := c, close := c
    tick_volume := 0, spread := 0, real_volume := 0 }

/-- Series 1 of the spec's zero-close scenario: closes 100, 110 at t = 1, 2. -/
def s1zero : List Bar := [mkBar 1 100, mkBar 2 110]

/-- Series 2 of the spec's zero-close scenario: close 50 at t = 1 and an
exact zero close at the shared timestamp t = 2. -/
def s2zero : List Bar := [mkBar 1 50, mkBar 2 0]

/-- C1, counterexample: on the spec's own scenario (series2 has a zero
close at one shared timestamp), `calculate_ratio` does NOT exclude that
point: both joined timestamps survive (length 2, not 1) and the output
contains a row with `close_2 = 0`, whose quotient (`inf` in the Python
floats) flows straight into the downstream statistics.  No exclusion
count exists anywhere in the code. -/
theorem calculate_ratio_zero_close_not_excluded :
    (calculate_ratio s1zero s2zero).length = 2 ∧
      ¬ (∀ p ∈ calculate_ratio s1zero s2zero, p.close_2 ≠ 0) := by
  constructor
  · rfl
  · intro h
    exact (h { time := 2, close_1 := 110, close_2 := 0, ratio := 110 / 0 }
      (by simp [calculate_ratio, s1zero, s2zero, mkBar])) rfl

/-- C1, amended: `calculate_ratio` performs a plain inner join and divides
at every joined timestamp: whenever a bar of `df1` and a bar of `df2`
share a timestamp, the output contains a point for that pair — also when
`series2.close` is exactly 0 there.  Nothing is excluded and no exclusion
count is reported. -/
theorem calculate_ratio_keeps_every_joined_timestamp
    (df1 df2 : List Bar) (b1 b2 : Bar)
    (h1 : b1 ∈ df1) (h2 : b2 ∈ df2) (ht : b2.time = b1.time) :
    ∃ p ∈ calculate_ratio df1 df2,
      p.time = b1.time ∧ p.close_1 = b1.close ∧ p.close_2 = b2.close ∧
        p.ratio = b1.close / b2.close := by
  refine ⟨{ time := b1.time, close_1 := b1.close, close_2 := b2.close
            ratio := b1.close / b2.close }, ?_, rfl, rfl, rfl, rfl⟩
  unfold calculate_ratio
  exact List.mem_flatMap.mpr
    ⟨b1, h1, List.mem_map.mpr ⟨b2, List.mem_filter.mpr ⟨h2, by simpa using ht⟩, rfl⟩⟩

/-- Witness for the amended C1 at the concrete zero-close scenario. -/
theorem calculate_ratio_keeps_every_joined_timestamp_witness :
    mkBar 2 110 ∈ s1zero ∧ mkBar 2 0 ∈ s2zero ∧ (mkBar 2 0).time = (mkBar 2 110).time ∧
      (∃ p ∈ calculate_ratio s1zero s2zero,
        p.time = (mkBar 2 110).time ∧ p.close_1 = (mkBar 2 110).close ∧
          p.close_2 = (mkBar 2 0).close ∧
          p.ratio = (mkBar 2 110).close / (mkBar 2 0).close) :=
  ⟨by simp [s1zero], by simp [s2zero], rfl,
    calculate_ratio_keeps_every_joined_timestamp s1zero s2zero
      (mkBar 2 110) (mkBar 2 0) (by simp [s1zero]) (by simp [s2zero]) rfl⟩

/-- C2: for bar series satisfying the BarSeries invariant (strictly
increasing timestamps), the merged result of `calculate_ratio` has length
at most `min (len df1) (len df2)` and its `time` column is again strictly
increasing (pandas' inner merge preserves the left frame's key order). -/
theorem calculate_ratio_length_le_min_and_sorted (s1 s2 : List Bar)
    (h1 : (times s1).Sorted (· < ·)) (h2 : (times s2).Sorted (· < ·)) :
    (calculate_ratio s1 s2).length ≤ min s1.length s2.length ∧
      (rtimes (calculate_ratio s1 s2)).Sorted (· < ·) := by
  have hnd1 : (times s1).Nodup := h1.nodup
  have hnd2 : (times s2).Nodup := h2.nodup
  have hrt := rtimes_calculate_ratio s1 s2 hnd2
  have hlen : (calculate_ratio s1 s2).length =
      (rtimes (calculate_ratio s1 s2)).length := (List.length_map _ _).symm
  constructor
  · rw [le_min_iff]
    constructor
    · rw [hlen, hrt]
      calc ((times s1).filter (fun t => decide (t ∈ times s2))).length
          ≤ (times s1).length := List.length_filter_le _ _
        _ = s1.length := List.length_map _ _
    · rw [hlen, hrt]
      have hsub : (times s1).filter (fun t => decide (t ∈ times s2)) ⊆ times s2 := by
        intro t ht
        exact of_decide_eq_true (List.mem_filter.mp ht).2
      have hnodup : ((times s1).filter (fun t => decide (t ∈ times s2))).Nodup :=
        hnd1.filter _
      calc ((times s1).filter (fun t => decide (t ∈ times s2))).length
          ≤ (times s2).length := (List.subperm_of_subset hnodup hsub).length_le
        _ = s2.length := List.length_map _ _
  · rw [hrt]
    exact h1.filter _

/-- Witness for C2 on a concrete pair of sorted series. -/
theorem calculate_ratio_length_le_min_and_sorted_witness :
    (times [mkBar 1 100, mkBar 2 110, mkBar 3 120]).Sorted (· < ·) ∧
      (times [mkBar 1 50, mkBar 3 60]).Sorted (· < ·) ∧
      ((calculate_ratio [mkBar 1 100, mkBar 2 110, mkBar 3 120]
          [mkBar 1 50, mkBar 3 60]).length ≤
        min ([mkBar 1 100, mkBar 2 110, mkBar 3 120] : List Bar).length
          ([mkBar 1 50, mkBar 3 60] : List Bar).length ∧
        (rtimes (calculate_ratio [mkBar 1 100, mkBar 2 110, mkBar 3 120]
          [mkBar 1 50, mkBar 3 60])).Sorted (· < ·)) :=
  ⟨by decide, by decide,
    calculate_ratio_length_le_min_and_sorted _ _ (by decide) (by decide)⟩

/-! ## Statistical summarization

`src/analyze_all_ratios.py` lines 258-272 (and the near-verbatim copy in
`src/market_ratio_analyzer.py` lines 214-234) compute, over the `ratio`
column: `current = iloc[-1]` (pandas raises its positional `IndexError`
on an empty column), `mean()`, `std()` (pandas default `ddof=1`, the
sample convention), the percentile `(ratio < current).sum()/len * 100`,
and the ±1·std three-way classification. -/

/-- The `ratio` column of a merged frame. -/
def ratioValues (rs : List RatioPoint) : List ℚ := rs.map (·.ratio)

/-- `series.iloc[-1]` on a nonempty column (callers guard emptiness via
`summarizeStats`; the `getD` default is never exercised there). -/
def pyLast (xs : List ℚ) : ℚ := xs.getLast?.getD 0

/-- `series.mean()`: sum / length (length 0 gives 0/0 = 0 in ℚ). -/
def pyMean (xs : List ℚ) : ℚ := xs.sum / xs.length

/-- `series.std() ** 2`: the sample variance with pandas' default
`ddof=1`, i.e. Σ (x − mean)² / (n − 1).  The code's `std` is the square
root of this value; at n = 1 pandas yields `NaN` (0/0), modelled here as
ℚ's 0/0 = 0, which produces the same `normal` classification. -/
def pyVar (xs : List ℚ) : ℚ :=
  (xs.map (fun x => (x - pyMean xs) ^ 2)).sum / ((xs.length : ℚ) - 1)

/-- `(series < current).sum() / len(series) * 100`: the boolean series is
summed as 0/1 indicators. -/
def pyPercentile (xs : List ℚ) : ℚ :=
  (xs.map (fun x => if x < pyLast xs then (1 : ℚ) else 0)).sum / xs.length * 100

/-- The three-way classification printed by the scripts. -/
inductive Status where
  | high
  | low
  | normal
deriving DecidableEq, Repr

/-- The classification `if current > mean + std: high elif current <
mean - std: low else: normal` (`src/analyze_all_ratios.py` lines
274-279, 191-199; `src/market_ratio_analyzer.py` lines 229-234).
Because `std = √(pyVar)` is irrational in general, the executable
embedding uses the square-free equivalent of each comparison
(`current - mean > std ↔ current - mean > 0 ∧ (current - mean)² > var`
for `std ≥ 0`); `classifyLatest_matches_sigma_rule` proves this equal to
the literal `mean ± 1·√var` comparisons over ℝ.  At n = 1 pandas' `std`
is `NaN`, both float comparisons are false and the code prints `normal`;
here `pyVar = 0` and `current = mean`, so both conditions are likewise
false. -/
def classifyLatest (xs : List ℚ) : Status :=
  if 0 < pyLast xs - pyMean xs ∧ pyVar xs < (pyLast xs - pyMean xs) ^ 2 then .high
  else if 0 < pyMean xs - pyLast xs ∧ pyVar xs < (pyMean xs - pyLast xs) ^ 2 then .low
  else .normal

/-- The summary record assembled by the statistics step. -/
structure SummaryStats where
  current : ℚ
  mean : ℚ
  variance : ℚ
  percentile : ℚ
  status : Status
deriving DecidableEq, Repr

/-- The statistics step of the pipeline (`src/analyze_all_ratios.py`
lines 258-272).  `iloc[-1]` on an empty column raises pandas' positional
`IndexError`; on a nonempty column every remaining computation is total.
There is no typed `EmptySeries` failure anywhere in the code. -/
def summarizeStats (xs : List ℚ) : Except PyError SummaryStats :=
  match xs.getLast? with
  | none => .error .indexError
  | some current =>
      .ok { current := current, mean := pyMean xs, variance := pyVar xs
            percentile := pyPercentile xs, status := classifyLatest xs }

/-- Disjoint-timestamp scenario, series 1. -/
def s1disj : List Bar := [mkBar 1 100]

/-- Disjoint-timestamp scenario, series 2. -/
def s2disj : List Bar := [mkBar 2 50]

/-- C3, counterexample: on the spec's zero-overlap scenario the ratio
series is empty and the statistics step fails with pandas' untyped
positional `IndexError` (from `.iloc[-1]`), not with a typed
`EmptySeries` failure — no such error type exists in the code; the error
is only caught by the scripts' blanket `except Exception`. -/
theorem summarizeStats_empty_is_untyped_index_error :
    calculate_ratio s1disj s2disj = [] ∧
      summarizeStats (ratioValues (calculate_ratio s1disj s2disj)) =
        Except.error PyError.indexError :=
  ⟨rfl, rfl⟩

/-- C3, amended: the statistics step fails exactly on an empty ratio
series, and the failure is pandas' untyped positional `IndexError`
(the only error it can produce), not a typed `EmptySeries`. -/
theorem summarizeStats_cons (a : ℚ) (l : List ℚ) :
    ∃ s, summarizeStats (a :: l) = Except.ok s := by
  unfold summarizeStats
  rcases hl : (a :: l).getLast? with _ | c
  · have : (a :: l).getLast?.isSome := List.getLast?_isSome.mpr (by simp)
    rw [hl] at this
    exact absurd this (by simp)
  · exact ⟨_, rfl⟩

theorem summarizeStats_error_iff_empty (xs : List ℚ) :
    (summarizeStats xs = Except.error PyError.indexError ↔ xs = []) ∧
      ∀ e, summarizeStats xs = Except.error e → e = PyError.indexError := by
  cases xs with
  | nil =>
    refine ⟨by simp [summarizeStats], fun e he => ?_⟩
    simp only [summarizeStats] at he
    exact (Except.error.inj he).symm
  | cons a l =>
    obtain ⟨s, hok⟩ := summarizeStats_cons a l
    refine ⟨⟨fun habs => ?_, fun habs => by simp at habs⟩, fun e he => ?_⟩
    · rw [hok] at habs
      cases habs
    · rw [hok] at he
      cases he

/-- Witness for the amended C3 at the empty series. -/
theorem summarizeStats_error_iff_empty_witness :
    summarizeStats ([] : List ℚ) = Except.error PyError.indexError :=
  (summarizeStats_error_iff_empty []).1.mpr rfl

theorem pyVar_nonneg (xs : List ℚ) : 0 ≤ pyVar xs := by
  cases xs with
  | nil => simp [pyVar]
  | cons a l =>
    apply div_nonneg
    · apply List.sum_nonneg
      intro x hx
      rcases List.mem_map.mp hx with ⟨y, _, rfl⟩
      positivity
    · simp only [List.length_cons]
      push_cast
      linarith [Nat.cast_nonneg (α := ℚ) l.length]

theorem sqrt_lt_iff_sq {d v : ℝ} : Real.sqrt v < d ↔ 0 < d ∧ v < d ^ 2 := by
  constructor
  · intro hlt
    have hd : 0 < d := lt_of_le_of_lt (Real.sqrt_nonneg v) hlt
    exact ⟨hd, (Real.sqrt_lt' hd).mp hlt⟩
  · rintro ⟨hd, hvd⟩
    exact (Real.sqrt_lt' hd).mpr hvd

/-- C7: on every non-empty ratio series the three-way classification of
the latest value agrees with the ±1·σ rule stated over the reals:
`high` iff `latest > mean + 1·std`, `low` iff `latest < mean − 1·std`,
`normal` otherwise, where `std = √(pyVar)` is the (sample, `ddof=1`)
standard deviation over all ratio values and the 1.0 threshold is a
fixed constant of the code. -/
theorem classifyLatest_matches_sigma_rule (xs : List ℚ) (h : xs ≠ []) :
    (classifyLatest xs = Status.high ↔
      (pyLast xs : ℝ) > (pyMean xs : ℝ) + Real.sqrt (pyVar xs)) ∧
    (classifyLatest xs = Status.low ↔
      (pyLast xs : ℝ) < (pyMean xs : ℝ) - Real.sqrt (pyVar xs)) ∧
    (classifyLatest xs = Status.normal ↔
      (¬ ((pyLast xs : ℝ) > (pyMean xs : ℝ) + Real.sqrt (pyVar xs)) ∧
       ¬ ((pyLast xs : ℝ) < (pyMean xs : ℝ) - Real.sqrt (pyVar xs)))) := by
  have _hne := h
  have hrhigh : ((pyLast xs : ℝ) > (pyMean xs : ℝ) + Real.sqrt (pyVar xs)) ↔
      (0 < pyLast xs - pyMean xs ∧ pyVar xs < (pyLast xs - pyMean xs) ^ 2) := by
    rw [show ((pyLast xs : ℝ) > (pyMean xs : ℝ) + Real.sqrt (pyVar xs)) ↔
        Real.sqrt ((pyVar xs : ℚ) : ℝ) < ((pyLast xs - pyMean xs : ℚ) : ℝ) from by
      push_cast
      constructor <;> intro hx <;> linarith]
    rw [sqrt_lt_iff_sq]
    constructor <;> rintro ⟨ha, hb⟩ <;> exact ⟨by exact_mod_cast ha, by exact_mod_cast hb⟩
  have hrlow : ((pyLast xs : ℝ) < (pyMean xs : ℝ) - Real.sqrt (pyVar xs)) ↔
      (0 < pyMean xs - pyLast xs ∧ pyVar xs < (pyMean xs - pyLast xs) ^ 2) := by
    rw [show ((pyLast xs : ℝ) < (pyMean xs : ℝ) - Real.sqrt (pyVar xs)) ↔
        Real.sqrt ((pyVar xs : ℚ) : ℝ) < ((pyMean xs - pyLast xs : ℚ) : ℝ) from by
      push_cast
      constructor <;> intro hx <;> linarith]
    rw [sqrt_lt_iff_sq]
    constructor <;> rintro ⟨ha, hb⟩ <;> exact ⟨by exact_mod_cast ha, by exact_mod_cast hb⟩
  have hdisj : ¬ ((0 < pyLast xs - pyMean xs ∧ pyVar xs < (pyLast xs - pyMean xs) ^ 2) ∧
      (0 < pyMean xs - pyLast xs ∧ pyVar xs < (pyMean xs - pyLast xs) ^ 2)) := by
    rintro ⟨⟨ha, _⟩, ⟨hc, _⟩⟩
    linarith
  refine ⟨?_, ?_, ?_⟩
  · rw [hrhigh]
    unfold classifyLatest
    split_ifs with h1 h2
    · exact iff_of_true rfl h1
    · exact iff_of_false (by simp) h1
    · exact iff_of_false (by simp) h1
  · rw [hrlow]
    unfold classifyLatest
    split_ifs with h1 h2
    · exact iff_of_false (by simp) (fun hc => hdisj ⟨h1, hc⟩)
    · exact iff_of_true rfl h2
    · exact iff_of_false (by simp) h2
  · rw [hrhigh, hrlow]
    unfold classifyLatest
    split_ifs with h1 h2
    · exact iff_of_false (by simp) (fun hc => hc.1 h1)
    · exact iff_of_false (by simp) (fun hc => hc.2 h2)
    · exact iff_of_true rfl ⟨h1, h2⟩

/-- Witness for C7 at the spec's concrete ratio values [2, 2.2, 2]. -/
theorem classifyLatest_matches_sigma_rule_witness :
    ([2, 22/10, 2] : List ℚ) ≠ [] ∧
    ((classifyLatest [2, 22/10, 2] = Status.high ↔
      (pyLast [2, 22/10, 2] : ℝ) > (pyMean [2, 22/10, 2] : ℝ) +
        Real.sqrt (pyVar [2, 22/10, 2])) ∧
    (classifyLatest [2, 22/10, 2] = Status.low ↔
      (pyLast [2, 22/10, 2] : ℝ) < (pyMean [2, 22/10, 2] : ℝ) -
        Real.sqrt (pyVar [2, 22/10, 2])) ∧
    (classifyLatest [2, 22/10, 2] = Status.normal ↔
      (¬ ((pyLast [2, 22/10, 2] : ℝ) > (pyMean [2, 22/10, 2] : ℝ) +
        Real.sqrt (pyVar [2, 22/10, 2])) ∧
       ¬ ((pyLast [2, 22/10, 2] : ℝ) < (pyMean [2, 22/10, 2] : ℝ) -
        Real.sqrt (pyVar [2, 22/10, 2]))))) :=
  ⟨by simp, classifyLatest_matches_sigma_rule [2, 22/10, 2] (by simp)⟩

theorem sum_indicator_eq_countP (c : ℚ) (l : List ℚ) :
    (l.map (fun x => if x < c then (1 : ℚ) else 0)).sum =
      (l.countP (fun x => decide (x < c)) : ℚ) := by
  induction l with
  | nil => simp
  | cons a l ih =>
    by_cases hac : a < c
    · simp only [List.map_cons, List.sum_cons, List.countP_cons, if_pos hac, ih,
        decide_eq_true hac]
      push_cast
      ring
    · simp only [List.map_cons, List.sum_cons, List.countP_cons, if_neg hac, ih,
        decide_eq_false hac]
      simp

/-- C8: on every non-empty ratio series the percentile of the latest
value equals (count of values strictly below the latest) / (total) × 100,
and on a single-point series it is 0%. -/
theorem pyPercentile_strict_rank (xs : List ℚ) (h : xs ≠ []) :
    pyPercentile xs =
      (xs.countP (fun x => decide (x < pyLast xs)) : ℚ) / xs.length * 100 ∧
      (xs.length = 1 → pyPercentile xs = 0) := by
  have _hne := h
  constructor
  · rw [pyPercentile, sum_indicator_eq_countP]
  · intro h1
    rcases List.length_eq_one.mp h1 with ⟨a, rfl⟩
    simp [pyPercentile, pyLast]

/-- Witness for C8 on a single-point series. -/
theorem pyPercentile_strict_rank_witness :
    ([(5 : ℚ)] : List ℚ) ≠ [] ∧
    (pyPercentile [(5 : ℚ)] =
      (List.countP (fun x => decide (x < pyLast [(5 : ℚ)])) [(5 : ℚ)] : ℚ) /
        ([(5 : ℚ)] : List ℚ).length * 100 ∧
      (([(5 : ℚ)] : List ℚ).length = 1 → pyPercentile [(5 : ℚ)] = 0)) :=
  ⟨by simp, pyPercentile_strict_rank [(5 : ℚ)] (by simp)⟩

/-! ## Timeframe resolver (`src/mt5_client/periods.py`)

The module guards `import MetaTrader5` with a `try/except` and falls back
to `mt5 = None`; every map entry is `getattr(mt5, "TIMEFRAME_…", d)` with
a minutes-based default `d`.  The embedding fixes the importless case
(`mt5 = None`), the only one fully determined by the repository itself,
so each code maps to its minutes-based default. -/

/-- `_TIMEFRAME_MAP` (lines 11-33), in dict insertion order, with the
`getattr` fallback constants. -/
def _TIMEFRAME_MAP : List (String × ℕ) :=
  [("M1", 1), ("M2", 2), ("M3", 3), ("M4", 4), ("M5", 5), ("M6", 6),
   ("M10", 10), ("M12", 12), ("M15", 15), ("M20", 20), ("M30", 30),
   ("H1", 60), ("H2", 120), ("H3", 180), ("H4", 240), ("H6", 360),
   ("H8", 480), ("H12", 720), ("D1", 1440), ("W1", 10080), ("MN1", 43200)]

/-- `x.replace("N", "100")` on characters (the pattern is the single
character `N`). -/
def replaceN (l : List Char) : List Char :=
  l.flatMap (fun c => if c = 'N' then ['1', '0', '0'] else [c])

/-- Decimal digit accumulation for `int(...)`; `none` on a non-digit. -/
def parseIntChars : List Char → ℕ → Option ℕ
  | [], acc => some acc
  | c :: t, acc =>
      if c.isDigit then parseIntChars t (acc * 10 + (c.toNat - 48)) else none

/-- Python `int(s)` on a digit string (`none` where Python would raise;
never hit on the timeframe keys). -/
def pyInt (l : List Char) : Option ℕ :=
  if l.isEmpty then none else parseIntChars l 0

/-- The Python sort key of `AVAILABLE_TIMEFRAMES` (lines 36-39):
`(0 if M / 1 if H / 2 if D / 3 if W / 4, int(x[1:].replace("N","100"))
if x[0] in MHDW else 999)`.  Note `"MN1"` gets key `(0, 1001)` and so
sorts inside the M group, after `"M30"`.  Implemented on `String.data`
(first character and character-level replace) so the key is computable by
the kernel; on the 21 map keys this agrees with the Python expression. -/
def tfSortKey (x : String) : ℕ × ℕ :=
  match x.data.head? with
  | some 'M' => (0, (pyInt (replaceN (x.data.drop 1))).getD 0)
  | some 'H' => (1, (pyInt (replaceN (x.data.drop 1))).getD 0)
  | some 'D' => (2, (pyInt (replaceN (x.data.drop 1))).getD 0)
  | some 'W' => (3, (pyInt (replaceN (x.data.drop 1))).getD 0)
  | _ => (4, 999)

/-- Strict lexicographic comparison of sort keys. -/
def tfKeyLT (x y : String) : Bool :=
  decide ((tfSortKey x).1 < (tfSortKey y).1 ∨
    ((tfSortKey x).1 = (tfSortKey y).1 ∧ (tfSortKey x).2 < (tfSortKey y).2))

/-- Stable insertion into a key-sorted list. -/
def insertByKey (a : String) : List String → List String
  | [] => [a]
  | b :: t => if tfKeyLT a b then a :: b :: t else b :: insertByKey a t

/-- Python's `sorted` is a stable comparison sort; on the timeframe keys
(whose sort keys are pairwise distinct) every comparison sort returns the
same list, embedded here as an insertion sort. -/
def pySorted : List String → List String
  | [] => []
  | a :: t => insertByKey a (pySorted t)

/-- `AVAILABLE_TIMEFRAMES` (lines 36-39): the map's keys sorted by
`tfSortKey`. -/
def AVAILABLE_TIMEFRAMES : List String :=
  pySorted (_TIMEFRAME_MAP.map Prod.fst)

/-- `timeframe_from_str` (lines 42-50): strip + upper-case, look the key
up in `_TIMEFRAME_MAP`, and raise
`ValueError(f"Unsupported timeframe: {tf}. Supported: {', '.join(AVAILABLE_TIMEFRAMES)}")`
otherwise. -/
def timeframe_from_str (tf : String) : Except String ℕ :=
  match _TIMEFRAME_MAP.lookup (tf.trim.toUpper) with
  | some v => .ok v
  | none => .error ("Unsupported timeframe: " ++ tf ++ ". Supported: " ++
      String.intercalate ", " AVAILABLE_TIMEFRAMES)

/-- The claim's table, written from the spec's words: the 21 supported
codes with the minutes-based arithmetic Mn→n, Hn→60·n, D1→1440,
W1→10080, MN1→43200, for comparison against `_TIMEFRAME_MAP`. -/
def claimPairs : List (String × ℕ) :=
  [("M1", 1), ("M2", 2), ("M3", 3), ("M4", 4), ("M5", 5), ("M6", 6),
   ("M10", 10), ("M12", 12), ("M15", 15), ("M20", 20), ("M30", 30),
   ("H1", 60 * 1), ("H2", 60 * 2), ("H3", 60 * 3), ("H4", 60 * 4),
   ("H6", 60 * 6), ("H8", 60 * 8), ("H12", 60 * 12),
   ("D1", 1440), ("W1", 10080), ("MN1", 43200)]

/-- The claim's supported set. -/
def supportedCodes : List String := claimPairs.map Prod.fst

theorem lookup_isSome_iff_mem_keys (l : List (String × ℕ)) (k : String) :
    (l.lookup k).isSome = true ↔ k ∈ l.map Prod.fst := by
  induction l with
  | nil => simp [List.lookup]
  | cons p t ih =>
    rcases p with ⟨key, val⟩
    by_cases hk : k = key
    · subst hk
      simp [List.lookup]
    · have hbeq : (k == key) = false := beq_eq_false_iff_ne.mpr hk
      simp only [List.lookup, hbeq, List.map_cons, List.mem_cons, ih]
      simp [hk]

/-- C4: `timeframe_from_str` succeeds exactly on inputs whose trimmed,
upper-cased form is one of the 21 supported codes; on success the value
is the claim's minutes-based constant for that code; on failure the
message is the `Unsupported timeframe` text whose `Supported:` list
enumerates exactly the supported set (as a permutation — the code lists
MN1 inside the M group). -/
theorem timeframe_from_str_spec (s : String) :
    ((timeframe_from_str s).isOk = true ↔ s.trim.toUpper ∈ supportedCodes) ∧
    (∀ v, timeframe_from_str s = .ok v →
      claimPairs.lookup (s.trim.toUpper) = some v) ∧
    (∀ msg, timeframe_from_str s = .error msg →
      msg = "Unsupported timeframe: " ++ s ++ ". Supported: " ++
        String.intercalate ", " AVAILABLE_TIMEFRAMES) ∧
    AVAILABLE_TIMEFRAMES.Perm supportedCodes := by
  have hmap : _TIMEFRAME_MAP = claimPairs := rfl
  have hkeys : _TIMEFRAME_MAP.map Prod.fst = supportedCodes := rfl
  refine ⟨?_, ?_, ?_, by decide⟩
  · rw [← hkeys, ← lookup_isSome_iff_mem_keys]
    unfold timeframe_from_str
    cases _TIMEFRAME_MAP.lookup (s.trim.toUpper) with
    | none => simp [Except.isOk, Except.toBool]
    | some v => simp [Except.isOk, Except.toBool]
  · intro v hv
    unfold timeframe_from_str at hv
    cases hl : _TIMEFRAME_MAP.lookup (s.trim.toUpper) with
    | none => rw [hl] at hv; cases hv
    | some w =>
      rw [hl] at hv
      rw [← hmap, hl]
      exact congrArg some (Except.ok.inj hv)
  · intro msg hmsg
    unfold timeframe_from_str at hmsg
    cases hl : _TIMEFRAME_MAP.lookup (s.trim.toUpper) with
    | none => rw [hl] at hmsg; exact (Except.error.inj hmsg).symm
    | some w => rw [hl] at hmsg; cases hmsg

/-- Witness for C4 applied at the concrete input " h4 " (whitespace and
case-insensitivity of the resolver). -/
theorem timeframe_from_str_spec_witness :
    ((timeframe_from_str " h4 ").isOk = true ↔
      (" h4 ".trim.toUpper) ∈ supportedCodes) ∧
    (∀ v, timeframe_from_str " h4 " = .ok v →
      claimPairs.lookup (" h4 ".trim.toUpper) = some v) ∧
    (∀ msg, timeframe_from_str " h4 " = .error msg →
      msg = "Unsupported timeframe: " ++ " h4 " ++ ". Supported: " ++
        String.intercalate ", " AVAILABLE_TIMEFRAMES) ∧
    AVAILABLE_TIMEFRAMES.Perm supportedCodes :=
  timeframe_from_str_spec " h4 "

/-! ## MT5 client (`src/mt5_client/client.py`)

The external `MetaTrader5` terminal is modelled as an environment record
of the query functions the client calls.  `None` results from the
terminal become `Option.none`. -/

/-- The fields of `mt5.symbol_info(...)` used by `ensure_symbol` and
`normalize_volume`. -/
structure MT5SymbolInfo where
  visible : Bool
  volume_min : ℚ
  volume_max : ℚ
  volume_step : ℚ
deriving DecidableEq, Repr

/-- The terminal API surface consumed by the functions under analysis. -/
structure MT5Env where
  symbol_info : String → Option MT5SymbolInfo
  symbol_select : String → Bool
  copy_rates_range : String → ℕ → ℤ → ℤ → Option (List Bar)
  copy_rates_from_pos : String → ℕ → ℕ → ℕ → Option (List Bar)
  last_error : String

/-- `MT5Client.ensure_symbol` (lines 74-80): unknown symbol →
`ValueError("Symbol not found: …")`; known but invisible and
`symbol_select` fails → `RuntimeError("Failed to select symbol: …")`. -/
def ensure_symbol (env : MT5Env) (symbol : String) : Except PyError Unit :=
  match env.symbol_info symbol with
  | none => .error (.valueError ("Symbol not found: " ++ symbol))
  | some info =>
      if info.visible then .ok ()
      else if env.symbol_select symbol then .ok ()
      else .error (.runtimeError ("Failed to select symbol: " ++ symbol))

/-- `df.sort_index()`: a stable ascending sort on the time index. -/
def sortIndex (l : List Bar) : List Bar :=
  l.mergeSort (fun a b => decide (a.time ≤ b.time))

/-- The tail of `get_rates` after the terminal call (lines 104-112):
`None` → `RuntimeError(f"Failed to fetch rates for {symbol}, timeframe
{timeframe}: {mt5.last_error()}")`; an empty result → an empty frame is
RETURNED (no error); otherwise the frame sorted by time. -/
def finishRates (env : MT5Env) (symbol : String) (timeframe : ℕ) :
    Option (List Bar) → Except PyError (List Bar)
  | none => .error (.runtimeError ("Failed to fetch rates for " ++ symbol ++
      ", timeframe " ++ toString timeframe ++ ": " ++ env.last_error))
  | some rates => if rates.isEmpty then .ok [] else .ok (sortIndex rates)

/-- `MT5Client.get_rates` (lines 82-112): `ensure_symbol` first; with
both range endpoints (`if from_time_utc and to_time_utc:` — datetimes
are always truthy) use `copy_rates_range`; otherwise a `None` count is
rejected with `ValueError` before any rates call, else
`copy_rates_from_pos(symbol, timeframe, 0, count)`. -/
def get_rates (env : MT5Env) (symbol : String) (timeframe : ℕ)
    (count : Option ℕ) (from_time_utc to_time_utc : Option ℤ) :
    Except PyError (List Bar) :=
  match ensure_symbol env symbol with
  | .error e => .error e
  | .ok _ =>
      match from_time_utc, to_time_utc with
      | some f, some t =>
          finishRates env symbol timeframe (env.copy_rates_range symbol timeframe f t)
      | _, _ =>
          match count with
          | none => .error (.valueError
              "count must be provided when from/to range is not specified")
          | some c =>
              finishRates env symbol timeframe
                (env.copy_rates_from_pos symbol timeframe 0 c)

/-- A terminal in which every symbol is known and visible and every
rates query returns zero bars. -/
def envZeroBars : MT5Env :=
  { symbol_info := fun _ => some
      { visible := true, volume_min := 1/100, volume_max := 100, volume_step := 1/100 }
    symbol_select := fun _ => true
    copy_rates_range := fun _ _ _ _ => some []
    copy_rates_from_pos := fun _ _ _ _ => some []
    last_error := "" }

/-- C5, counterexample: a range that yields zero bars does NOT fail with
a `NoData` error — `get_rates` returns an empty frame successfully
(line 107). -/
theorem get_rates_zero_bars_no_error :
    get_rates envZeroBars "XAUUSD" 240 (some 1000) (some 0) (some 100) =
        Except.ok [] ∧
      (get_rates envZeroBars "XAUUSD" 240 (some 1000) (some 0) (some 100)).isOk = true :=
  ⟨rfl, rfl⟩

/-- C5, amended: an unrecognized symbol fails with
`ValueError("Symbol not found: …")` (the code's symbol-unavailable
error), while a range yielding zero bars is returned as an empty bar
series with no error at all. -/
theorem get_rates_unknown_symbol_and_empty_range
    (env : MT5Env) (symbol : String) (timeframe : ℕ) (count : Option ℕ)
    (f t : ℤ) :
    (env.symbol_info symbol = none →
      get_rates env symbol timeframe count (some f) (some t) =
        Except.error (.valueError ("Symbol not found: " ++ symbol))) ∧
    (ensure_symbol env symbol = .ok () →
      env.copy_rates_range symbol timeframe f t = some [] →
      get_rates env symbol timeframe count (some f) (some t) = Except.ok []) := by
  constructor
  · intro hnone
    unfold get_rates ensure_symbol
    rw [hnone]
  · intro hok hempty
    unfold get_rates
    rw [hok]
    show finishRates env symbol timeframe
      (env.copy_rates_range symbol timeframe f t) = Except.ok []
    rw [hempty]
    rfl

/-- A terminal knowing every symbol except "UNKNOWN", always returning
zero bars. -/
def envMixed : MT5Env :=
  { symbol_info := fun s => if s = "UNKNOWN" then none else some
      { visible := true, volume_min := 1/100, volume_max := 100, volume_step := 1/100 }
    symbol_select := fun _ => true
    copy_rates_range := fun _ _ _ _ => some []
    copy_rates_from_pos := fun _ _ _ _ => some []
    last_error := "" }

/-- Witness for the amended C5 on both branches at concrete inputs. -/
theorem get_rates_unknown_symbol_and_empty_range_witness :
    (envMixed.symbol_info "UNKNOWN" = none ∧
      get_rates envMixed "UNKNOWN" 240 (some 1000) (some 0) (some 9) =
        Except.error (.valueError ("Symbol not found: " ++ "UNKNOWN"))) ∧
    (ensure_symbol envMixed "XAUUSD" = .ok () ∧
      envMixed.copy_rates_range "XAUUSD" 240 0 9 = some [] ∧
      get_rates envMixed "XAUUSD" 240 (some 1000) (some 0) (some 9) =
        Except.ok []) :=
  ⟨⟨rfl, (get_rates_unknown_symbol_and_empty_range envMixed "UNKNOWN" 240
      (some 1000) 0 9).1 rfl⟩,
   ⟨rfl, rfl, (get_rates_unknown_symbol_and_empty_range envMixed "XAUUSD" 240
      (some 1000) 0 9).2 rfl rfl⟩⟩

/-- A terminal whose only symbol is known but invisible and cannot be
selected. -/
def envSelectFail : MT5Env :=
  { symbol_info := fun _ => some
      { visible := false, volume_min := 1/100, volume_max := 100, volume_step := 1/100 }
    symbol_select := fun _ => false
    copy_rates_range := fun _ _ _ _ => some []
    copy_rates_from_pos := fun _ _ _ _ => some []
    last_error := "" }

/-- C9, counterexample: a call with no range and `count = None` does not
always raise `ValueError` — when the symbol pre-check's
`symbol_select` fails, the call dies earlier with a `RuntimeError`. -/
theorem get_rates_missing_count_runtime_error :
    get_rates envSelectFail "EURUSD" 240 none none none =
        Except.error (.runtimeError ("Failed to select symbol: " ++ "EURUSD")) ∧
      (match get_rates envSelectFail "EURUSD" 240 none none none with
        | .error (.valueError _) => False
        | _ => True) :=
  ⟨rfl, trivial⟩

/-- C9, amended: when the range is not fully given and `count` is
`None`, `get_rates` never invokes a rates fetch — its result does not
depend on the terminal's `copy_rates_*` functions — and, provided the
symbol pre-check passes, it fails with the explicit
`ValueError("count must be provided when from/to range is not
specified")`. -/
theorem get_rates_count_validated_before_fetch
    (e1 e2 : MT5Env) (symbol : String) (timeframe : ℕ) (f t : Option ℤ)
    (hsi : e1.symbol_info = e2.symbol_info)
    (hss : e1.symbol_select = e2.symbol_select)
    (hft : ¬ (f.isSome = true ∧ t.isSome = true)) :
    get_rates e1 symbol timeframe none f t =
        get_rates e2 symbol timeframe none f t ∧
    (ensure_symbol e1 symbol = .ok () →
      get_rates e1 symbol timeframe none f t =
        Except.error (.valueError
          "count must be provided when from/to range is not specified")) := by
  have hens : ensure_symbol e1 symbol = ensure_symbol e2 symbol := by
    unfold ensure_symbol
    rw [hsi, hss]
  rcases f with _ | fv <;> rcases t with _ | tv
  · exact ⟨by unfold get_rates; rw [hens],
      fun hok => by unfold get_rates; rw [hok]⟩
  · exact ⟨by unfold get_rates; rw [hens],
      fun hok => by unfold get_rates; rw [hok]⟩
  · exact ⟨by unfold get_rates; rw [hens],
      fun hok => by unfold get_rates; rw [hok]⟩
  · exact absurd ⟨rfl, rfl⟩ hft

/-- `envMixed` with every rates function replaced by a failing one: used
to witness that the count check does not consult them. -/
def envMixedNoRates : MT5Env :=
  { symbol_info := fun s => if s = "UNKNOWN" then none else some
      { visible := true, volume_min := 1/100, volume_max := 100, volume_step := 1/100 }
    symbol_select := fun _ => true
    copy_rates_range := fun _ _ _ _ => none
    copy_rates_from_pos := fun _ _ _ _ => none
    last_error := "terminal gone" }

/-- Witness for the amended C9: the same `count=None` call against two
terminals that differ only in their rates functions. -/
theorem get_rates_count_validated_before_fetch_witness :
    envMixed.symbol_info = envMixedNoRates.symbol_info ∧
    envMixed.symbol_select = envMixedNoRates.symbol_select ∧
    ¬ ((none : Option ℤ).isSome = true ∧ (some (5:ℤ) : Option ℤ).isSome = true) ∧
    ensure_symbol envMixed "XAUUSD" = .ok () ∧
    (get_rates envMixed "XAUUSD" 240 none none (some 5) =
        get_rates envMixedNoRates "XAUUSD" 240 none none (some 5)) ∧
    get_rates envMixed "XAUUSD" 240 none none (some 5) =
      Except.error (.valueError
        "count must be provided when from/to range is not specified") :=
  ⟨rfl, rfl, by simp, rfl,
    (get_rates_count_validated_before_fetch envMixed envMixedNoRates "XAUUSD" 240
      none (some 5) rfl rfl (by simp)).1,
    (get_rates_count_validated_before_fetch envMixed envMixedNoRates "XAUUSD" 240
      none (some 5) rfl rfl (by simp)).2 rfl⟩

/-! ## Volume normalization (`MT5Client.normalize_volume`, lines 483-506) -/

/-- Python's built-in `round` to the nearest integer, ties to even
(banker's rounding): `round(0.5) = 0`, `round(1.5) = 2`,
`round(-0.5) = 0`. -/
def pyRound (q : ℚ) : ℤ :=
  if q - ⌊q⌋ < 1/2 then ⌊q⌋
  else if 1/2 < q - ⌊q⌋ then ⌊q⌋ + 1
  else if ⌊q⌋ % 2 = 0 then ⌊q⌋ else ⌊q⌋ + 1

/-- Python `round(volume, 2)`. -/
def pyRound2 (q : ℚ) : ℚ := (pyRound (q * 100) : ℚ) / 100

/-- `MT5Client.normalize_volume` (lines 483-506): with no symbol info the
fallback `max(0.01, round(volume, 2))`; otherwise round the volume to
the nearest `volume_step` multiple and clamp with
`max(volume_min, min(volume_max, normalized))`.  The whole body sits in
`try/except Exception`, so a zero `volume_step` (whose float division
raises `ZeroDivisionError`) also lands in the fallback — the function
never raises, which this total embedding reflects. -/
def normalize_volume (env : MT5Env) (symbol : String) (volume : ℚ) : ℚ :=
  match env.symbol_info symbol with
  | none => max (1/100) (pyRound2 volume)
  | some info =>
      if info.volume_step = 0 then max (1/100) (pyRound2 volume)
      else max info.volume_min
        (min info.volume_max ((pyRound (volume / info.volume_step) : ℚ) * info.volume_step))

/-- A broker symbol with `volume_min = 0.01`, `volume_max = 100`,
`volume_step = 0.02`. -/
def envStep2 : MT5Env :=
  { symbol_info := fun _ => some
      { visible := true, volume_min := 1/100, volume_max := 100, volume_step := 1/50 }
    symbol_select := fun _ => true
    copy_rates_range := fun _ _ _ _ => some []
    copy_rates_from_pos := fun _ _ _ _ => some []
    last_error := "" }

/-- C10, counterexample: with `volume_min = 0.01` and
`volume_step = 0.02`, normalizing a volume of 0 clamps to
`volume_min = 0.01`, which is NOT an integer multiple of the step — the
"integer multiple of volume_step" part of the claim fails once clamping
engages. -/
theorem normalize_volume_clamped_value_not_step_multiple :
    normalize_volume envStep2 "XAUUSD" 0 = 1/100 ∧
      ¬ ∃ k : ℤ, (1/100 : ℚ) = k * (1/50) := by
  constructor
  · have h0 : pyRound ((0 : ℚ) / (1/50)) = 0 := by
      norm_num [pyRound]
    simp only [normalize_volume, envStep2, h0]
    norm_num
  · rintro ⟨k, hk⟩
    have hq := hk
    field_simp at hq
    have h2 : (50 : ℤ) = k * 100 := by exact_mod_cast hq
    omega

/-- C10, amended: `normalize_volume` is total (exceptions, including the
`ZeroDivisionError` of a zero step, fall back to
`max(0.01, round(volume, 2))`, as does absent symbol info); with symbol
info present, a nonzero step and `volume_min ≤ volume_max`, the result
is clamped into `[volume_min, volume_max]` and equals either the rounded
step multiple `round(volume/step)·step` or one of the two bounds; it is
exactly the rounded step multiple whenever that multiple already lies
within the bounds. -/
theorem normalize_volume_spec (env : MT5Env) (symbol : String) (volume : ℚ) :
    (env.symbol_info symbol = none →
      normalize_volume env symbol volume = max (1/100) (pyRound2 volume)) ∧
    (∀ info, env.symbol_info symbol = some info → info.volume_step = 0 →
      normalize_volume env symbol volume = max (1/100) (pyRound2 volume)) ∧
    (∀ info, env.symbol_info symbol = some info → info.volume_step ≠ 0 →
      info.volume_min ≤ info.volume_max →
      (info.volume_min ≤ normalize_volume env symbol volume ∧
        normalize_volume env symbol volume ≤ info.volume_max) ∧
      (normalize_volume env symbol volume =
          (pyRound (volume / info.volume_step) : ℚ) * info.volume_step ∨
        normalize_volume env symbol volume = info.volume_min ∨
        normalize_volume env symbol volume = info.volume_max) ∧
      (info.volume_min ≤ (pyRound (volume / info.volume_step) : ℚ) * info.volume_step →
        (pyRound (volume / info.volume_step) : ℚ) * info.volume_step ≤ info.volume_max →
        normalize_volume env symbol volume =
          (pyRound (volume / info.volume_step) : ℚ) * info.volume_step)) := by
  refine ⟨fun hnone => by unfold normalize_volume; rw [hnone], ?_, ?_⟩
  · intro info hinfo hstep
    unfold normalize_volume
    rw [hinfo]
    exact if_pos hstep
  · intro info hinfo hstep hmm
    have hval : normalize_volume env symbol volume =
        max info.volume_min
          (min info.volume_max
            ((pyRound (volume / info.volume_step) : ℚ) * info.volume_step)) := by
      unfold normalize_volume
      rw [hinfo]
      exact if_neg hstep
    refine ⟨⟨?_, ?_⟩, ?_, ?_⟩
    · rw [hval]
      exact le_max_left _ _
    · rw [hval]
      exact max_le hmm (min_le_left _ _)
    · rw [hval]
      rcases le_total (min info.volume_max
          ((pyRound (volume / info.volume_step) : ℚ) * info.volume_step))
          info.volume_min with h1 | h1
      · right; left
        exact max_eq_left h1
      · rw [max_eq_right h1]
        rcases le_total ((pyRound (volume / info.volume_step) : ℚ) * info.volume_step)
            info.volume_max with h2 | h2
        · left; exact min_eq_right h2
        · right; right; exact min_eq_left h2
    · intro hlo hhi
      rw [hval, min_eq_right hhi, max_eq_right hlo]

/-- Witness for the amended C10: step 0.02, bounds [0.01, 100],
volume 7 (no clamping needed). -/
theorem normalize_volume_spec_witness :
    (envStep2.symbol_info "XAUUSD" =
        some { visible := true, volume_min := 1/100, volume_max := 100,
               volume_step := 1/50 } ∧
      ((1:ℚ)/50) ≠ 0 ∧ ((1:ℚ)/100) ≤ 100) ∧
    (((1:ℚ)/100 ≤ normalize_volume envStep2 "XAUUSD" 7 ∧
        normalize_volume envStep2 "XAUUSD" 7 ≤ 100) ∧
      (normalize_volume envStep2 "XAUUSD" 7 =
          (pyRound ((7:ℚ) / (1/50)) : ℚ) * (1/50) ∨
        normalize_volume envStep2 "XAUUSD" 7 = 1/100 ∨
        normalize_volume envStep2 "XAUUSD" 7 = 100) ∧
      ((1:ℚ)/100 ≤ (pyRound ((7:ℚ) / (1/50)) : ℚ) * (1/50) →
        (pyRound ((7:ℚ) / (1/50)) : ℚ) * (1/50) ≤ 100 →
        normalize_volume envStep2 "XAUUSD" 7 =
          (pyRound ((7:ℚ) / (1/50)) : ℚ) * (1/50))) :=
  ⟨⟨rfl, by norm_num, by norm_num⟩,
    (normalize_volume_spec envStep2 "XAUUSD" 7).2.2
      { visible := true, volume_min := 1/100, volume_max := 100, volume_step := 1/50 }
      rfl (by norm_num) (by norm_num)⟩

/-! ## Batch orchestration (`analyze_all_ratios.main`, lines 213-340)

`main` wraps the ENTIRE batch — the per-ratio loop, then the chart loop,
then the data-file loop, then the summary table — in one `try/except`.
Every file is written only after all ratios have been processed, so an
exception in any ratio's pipeline reaches the top-level handler before a
single output exists. -/

/-- One entry of `RATIO_CONFIGS` (only the fields the pipeline and the
file names consume). -/
structure RatioConfig where
  name : String
  symbol1 : String
  symbol2 : String
deriving DecidableEq, Repr

/-- One iteration of the per-ratio loop (lines 244-284): fetch both
symbols, merge into the ratio frame, compute the statistics (which
raises on an empty frame).  Python exception propagation is the `error`
short-circuit. -/
def processConfig (fetch : String → Except PyError (List Bar))
    (c : RatioConfig) : Except PyError (List RatioPoint) :=
  match fetch c.symbol1 with
  | .error e => .error e
  | .ok df1 =>
      match fetch c.symbol2 with
      | .error e => .error e
      | .ok df2 =>
          match summarizeStats (ratioValues (calculate_ratio df1 df2)) with
          | .error e => .error e
          | .ok _ => .ok (calculate_ratio df1 df2)

/-- The `for config in RATIO_CONFIGS` loop building `all_results`; an
exception anywhere aborts the whole loop (there is no per-ratio
handler). -/
def runAll (fetch : String → Except PyError (List Bar)) :
    List RatioConfig → Except PyError (List (RatioConfig × List RatioPoint))
  | [] => .ok []
  | c :: cs =>
      match processConfig fetch c with
      | .error e => .error e
      | .ok rd =>
          match runAll fetch cs with
          | .error e => .error e
          | .ok rest => .ok ((c, rd) :: rest)

/-- The files `main` writes: one chart and one data file per ratio plus
the aggregate summary — all emitted AFTER the loop; when the loop raises,
the top-level `except` just prints and nothing is written. -/
def mainOutputs (fetch : String → Except PyError (List Bar))
    (configs : List RatioConfig) (timestamp : String) : List String :=
  match runAll fetch configs with
  | .error _ => []
  | .ok results =>
      results.map (fun r => r.1.name ++ "_" ++ timestamp ++ ".png") ++
        results.map (fun r => r.1.name ++ "_data_" ++ timestamp ++ ".csv") ++
        ["市场比值汇总_" ++ timestamp ++ ".csv"]

/-- The gold/silver configuration. -/
def cGoldSilver : RatioConfig :=
  { name := "金银比", symbol1 := "XAUUSD", symbol2 := "XAGUSD" }

/-- The gold/platinum configuration. -/
def cGoldPlat : RatioConfig :=
  { name := "金铂比", symbol1 := "XAUUSD", symbol2 := "XPTUSD" }

/-- A fetcher for which only "XPTUSD" fails. -/
def fetchOneBad : String → Except PyError (List Bar) := fun s =>
  if s = "XPTUSD" then
    .error (.runtimeError
      "Failed to fetch rates for XPTUSD, timeframe 240: (1, Terminal: not found)")
  else .ok [mkBar 1 100]

/-- C6, counterexample: the first ratio's pipeline succeeds, the second
fails — and the batch produces NO outputs at all: the completed
gold/silver ratio's chart, data file and summary row are all lost. -/
theorem main_batch_failure_drops_completed_outputs :
    (processConfig fetchOneBad cGoldSilver).isOk = true ∧
      mainOutputs fetchOneBad [cGoldSilver, cGoldPlat] "20260101_000000" = [] :=
  ⟨rfl, rfl⟩

/-- C6, amended: if ANY configured ratio's pipeline fails, the whole
batch aborts through the single top-level handler and no output files
are produced — not even those of ratios that already completed. -/
theorem mainOutputs_empty_of_any_failure
    (fetch : String → Except PyError (List Bar)) (configs : List RatioConfig)
    (ts : String) (c : RatioConfig) (hc : c ∈ configs)
    (hfail : (processConfig fetch c).isOk = false) :
    mainOutputs fetch configs ts = [] := by
  have h : ∀ l : List RatioConfig, c ∈ l → ∃ e, runAll fetch l = .error e := by
    intro l
    induction l with
    | nil => intro hx; cases hx
    | cons c0 cs ih =>
      intro hx
      rcases List.mem_cons.mp hx with rfl | hmem
      · cases hp : processConfig fetch c with
        | error e => exact ⟨e, by unfold runAll; rw [hp]⟩
        | ok rd => rw [hp] at hfail; simp [Except.isOk, Except.toBool] at hfail
      · rcases ih hmem with ⟨e, he⟩
        cases hp : processConfig fetch c0 with
        | error e0 => exact ⟨e0, by unfold runAll; rw [hp]⟩
        | ok rd => exact ⟨e, by unfold runAll; rw [hp, he]⟩
  rcases h configs hc with ⟨e, he⟩
  unfold mainOutputs
  rw [he]

/-- Witness for the amended C6 at the concrete two-ratio batch. -/
theorem mainOutputs_empty_of_any_failure_witness :
    cGoldPlat ∈ [cGoldSilver, cGoldPlat] ∧
      (processConfig fetchOneBad cGoldPlat).isOk = false ∧
      mainOutputs fetchOneBad [cGoldSilver, cGoldPlat] "20260102_090000" = [] :=
  ⟨by simp, rfl,
    mainOutputs_empty_of_any_failure fetchOneBad [cGoldSilver, cGoldPlat]
      "20260102_090000" cGoldPlat (by simp) rfl⟩

end MarketRatio
